import Mathlib

/-!
# SpendGuard: verification of the detection-and-interception engine

A shallow embedding of the SpendGuard browser extension's core logic:
the purchase-button classifier, the context extractor (price parsing and
categorization), the cooldown state machine, the interception registry,
the savings ledger, and the storage layer.  Each definition is translated
from the corresponding TypeScript source; theorems settle the spec's
claims about them.

Conventions:
* JS strings are Lean `String`s; `String.prototype.includes` becomes
  `strContains` (substring containment on the character lists).
* JS numbers that carry prices are modelled as `ℚ` (all arithmetic in the
  source on these values is exact decimal arithmetic well within Float
  precision); timestamps and counters are `ℕ`.
* JS objects used as string-keyed maps with a `|| 0` default read are
  modelled as total functions `String → ℚ` that default to `0`.
* JS `Set` / `Map` membership over DOM elements is modelled as predicates
  `Nat → Bool` over abstract element identifiers.
* Asynchronous timers are modelled by a per-second step function on an
  explicit state record; `setTimeout`/`setInterval` callbacks scheduled
  for the same millisecond fire in registration order, as in the event
  loop.
-/

namespace SpendGuard

/-- Auxiliary scan for substring containment: does `needle` occur starting
at some position of the list? -/
def strContainsAux (needle : List Char) : List Char → Bool
  | [] => needle.isEmpty
  | c :: rest => needle.isPrefixOf (c :: rest) || strContainsAux needle rest

/-- JS `haystack.includes(needle)`: substring containment. -/
def strContains (haystack needle : String) : Bool :=
  strContainsAux needle.toList haystack.toList

/-- ASCII lowercasing of one character (all vocabulary in the source is
ASCII, so JS `toLowerCase` coincides with ASCII lowercasing on every
string the classifier compares). -/
def lowerChar (c : Char) : Char :=
  if 65 ≤ c.toNat ∧ c.toNat ≤ 90 then Char.ofNat (c.toNat + 32) else c

/-- JS `s.toLowerCase()` on ASCII data. -/
def strToLower (s : String) : String :=
  ⟨s.toList.map lowerChar⟩

/-- Number of non-overlapping, left-to-right occurrences of `needle` in the
text, as counted by `text.match(new RegExp(keyword, 'g')).length` for a
plain (metacharacter-free, nonempty) keyword.  After a match the scan
resumes past the matched text; the `skip` counter carries the remaining
characters of the current match still to be stepped over (structural
recursion on the haystack). -/
def countOccsGo (needle : List Char) : Nat → List Char → Nat
  | _, [] => 0
  | Nat.succ k, _ :: rest => countOccsGo needle k rest
  | 0, c :: rest =>
    if needle.isPrefixOf (c :: rest) ∧ needle ≠ [] then
      1 + countOccsGo needle (needle.length - 1) rest
    else
      countOccsGo needle 0 rest

/-- Occurrence count lifted to strings. -/
def countOccs (haystack needle : String) : Nat :=
  countOccsGo needle.toList 0 haystack.toList

/-! ## Storage layer (`src/utils/storage.ts`, `src/background/index.ts`)

`PurchaseEntry` is the persisted interception record.  `addPurchase`
prepends a new entry (with a time-derived id) to the `purchases` list and
truncates it to 100 entries (`purchases.unshift(...); if (purchases.length
> 100) purchases.splice(100)`). -/

/-- The fields of a purchase record supplied by the caller (everything but
the store-assigned `id`). -/
structure PurchaseInput where
  url : String
  timestamp : Nat
  intercepted : Bool
  proceeded : Bool
  amount : Option ℚ
  reason : Option String
  deriving Repr, DecidableEq

/-- A persisted `PurchaseEntry`: the caller's fields plus the assigned
time-derived `id` (`Date.now().toString()` — modelled as the numeric
timestamp). -/
structure PurchaseEntry where
  id : Nat
  url : String
  timestamp : Nat
  intercepted : Bool
  proceeded : Bool
  amount : Option ℚ
  reason : Option String
  deriving Repr, DecidableEq

/-- `{...purchase, id: Date.now().toString()}`. -/
def toEntry (p : PurchaseInput) (id : Nat) : PurchaseEntry :=
  { id := id, url := p.url, timestamp := p.timestamp,
    intercepted := p.intercepted, proceeded := p.proceeded,
    amount := p.amount, reason := p.reason }

/-- Forget the assigned id again. -/
def stripId (e : PurchaseEntry) : PurchaseInput :=
  { url := e.url, timestamp := e.timestamp, intercepted := e.intercepted,
    proceeded := e.proceeded, amount := e.amount, reason := e.reason }

/-- `addPurchase`: unshift the new entry onto the stored list and keep only
the first 100 entries. -/
def addPurchase (stored : List PurchaseEntry) (p : PurchaseInput) (id : Nat) :
    List PurchaseEntry :=
  List.take 100 (toEntry p id :: stored)

/-- `getPurchases`: reading the `purchases` key returns the stored list
as-is (`result[key] || []`). -/
def getPurchases (stored : List PurchaseEntry) : List PurchaseEntry :=
  stored

/-! ## Settings (`src/utils/storage.ts`) -/

/-- The persisted `settings` object. -/
structure Settings where
  cooldownSeconds : Nat
  enableNudges : Bool
  enableScamDetection : Bool
  deriving Repr, DecidableEq

/-- The documented defaults used when no settings are stored. -/
def defaultSettings : Settings :=
  { cooldownSeconds := 30, enableNudges := true, enableScamDetection := true }

/-- A `Partial<Settings>` update object: each field either present or
absent. -/
structure PartialSettings where
  cooldownSeconds : Option Nat
  enableNudges : Option Bool
  enableScamDetection : Option Bool
  deriving Repr, DecidableEq

/-- `getSettings`: the stored settings, or the defaults when the key is
absent. -/
def getSettings (stored : Option Settings) : Settings :=
  stored.getD defaultSettings

/-- `updateSettings`: read-modify-write with object spread
`{...currentSettings, ...newSettings}` — fields present in the partial
object override, absent fields keep the current value. -/
def updateSettings (stored : Option Settings) (u : PartialSettings) : Settings :=
  let current := getSettings stored
  { cooldownSeconds := u.cooldownSeconds.getD current.cooldownSeconds,
    enableNudges := u.enableNudges.getD current.enableNudges,
    enableScamDetection := u.enableScamDetection.getD current.enableScamDetection }

/-! ## Savings Ledger (`LightweightInterceptor.recordSavings`,
`getDefaultSavingsData` in `src/content/intercept.tsx`)

`recordSavings` folds one event into the persisted `SavingsData`.  The
string-keyed JS objects `categorySavings`/`monthlySavings` (read with
`|| 0`) are modelled as total functions defaulting to `0`. -/

/-- The transient `PurchaseContext` derived per interception attempt. -/
structure PurchaseContext where
  productName : Option String
  price : Option ℚ
  priceText : Option String
  currency : Option String
  category : Option String
  deriving Repr, DecidableEq

/-- The `biggestSave` record inside `SavingsData`. -/
structure BiggestSave where
  amount : ℚ
  productName : Option String
  date : Nat
  deriving Repr, DecidableEq

/-- The persisted `SavingsData` singleton. -/
structure SavingsData where
  totalSaved : ℚ
  interceptsCount : Nat
  proceededCount : Nat
  lastInterceptDate : Nat
  categorySavings : String → ℚ
  monthlySavings : String → ℚ
  biggestSave : BiggestSave

/-- `getDefaultSavingsData`: all-zero ledger with empty maps. -/
def defaultSavingsData : SavingsData :=
  { totalSaved := 0, interceptsCount := 0, proceededCount := 0,
    lastInterceptDate := 0, categorySavings := fun _ => 0,
    monthlySavings := fun _ => 0,
    biggestSave := { amount := 0, productName := none, date := 0 } }

/-- `recordSavings(context)`: early-returns when `context.price` is falsy
(absent or `0`); otherwise adds the price to the total, the category
bucket (when a category is present) and the month bucket, bumps the event
count and the last-intercept date, and replaces `biggestSave` when the
price strictly exceeds the stored maximum. -/
def recordSavings (ctx : PurchaseContext) (monthKey : String) (now : Nat)
    (s : SavingsData) : SavingsData :=
  match ctx.price with
  | none => s
  | some price =>
    if price = 0 then s else
    { totalSaved := s.totalSaved + price,
      interceptsCount := s.interceptsCount + 1,
      proceededCount := s.proceededCount,
      lastInterceptDate := now,
      categorySavings :=
        match ctx.category with
        | some c => fun k =>
            if k = c then s.categorySavings c + price else s.categorySavings k
        | none => s.categorySavings,
      monthlySavings := fun k =>
        if k = monthKey then s.monthlySavings monthKey + price
        else s.monthlySavings k,
      biggestSave :=
        if s.biggestSave.amount < price then
          { amount := price, productName := ctx.productName, date := now }
        else s.biggestSave }

/-- One abandoned-purchase event as fed to the ledger: the extracted
price, optional category and product name, and the month/date at which it
was recorded. -/
structure SaveEvent where
  price : ℚ
  category : Option String
  productName : Option String
  monthKey : String
  date : Nat
  deriving Repr, DecidableEq

/-- Feed one event into the ledger via `recordSavings`. -/
def applyEvent (s : SavingsData) (e : SaveEvent) : SavingsData :=
  recordSavings
    { productName := e.productName, price := some e.price, priceText := none,
      currency := none, category := e.category } e.monthKey e.date s

/-- Fold a sequence of events into the ledger, starting from the initial
(default) ledger. -/
def foldSavings (evs : List SaveEvent) : SavingsData :=
  evs.foldl applyEvent defaultSavingsData

/-- The two events of the spec's worked example: 30 then 10, both in
category "Books". -/
def demoEvents : List SaveEvent :=
  [{ price := 30, category := some "Books", productName := none,
     monthKey := "2025-01", date := 1 },
   { price := 10, category := some "Books", productName := none,
     monthKey := "2025-01", date := 2 }]

/-! ## A single interception run
(`LightweightInterceptor.interceptClick` / `recordIntercept` /
`recordProceed` in `src/content/intercept.tsx`)

One run touches three persisted pieces of state: the `purchases` list,
the `totalIntercepts` counter and the `SavingsData` ledger. -/

/-- The persisted state touched by an interception run. -/
structure RunStore where
  purchases : List PurchaseEntry
  totalIntercepts : Nat
  savings : SavingsData

/-- The `Idle → Counting` transition (`interceptClick` → `recordIntercept`):
writes an `intercepted: true, proceeded: false` record carrying the
extracted price, increments `totalIntercepts`, and — whenever
`context.price` is truthy — immediately feeds the price into the Savings
Ledger via `recordSavings`. -/
def interceptStep (ctx : PurchaseContext) (url : String) (ts : Nat)
    (monthKey : String) (st : RunStore) : RunStore :=
  let st1 : RunStore :=
    { purchases := addPurchase st.purchases
        ({ url := url, timestamp := ts, intercepted := true, proceeded := false,
           amount := ctx.price, reason := none }) ts,
      totalIntercepts := st.totalIntercepts + 1,
      savings := st.savings }
  match ctx.price with
  | some p =>
      if p ≠ 0 then { st1 with savings := recordSavings ctx monthKey ts st1.savings }
      else st1
  | none => st1

/-- `Resolved(Proceed)` (`proceedWithClick` → `recordProceed`): writes a
second record with `proceeded: true`.  It does not touch the ledger. -/
def resolveProceed (url : String) (ts : Nat) (st : RunStore) : RunStore :=
  let entry : PurchaseInput :=
    { url := url, timestamp := ts, intercepted := true, proceeded := true,
      amount := none, reason := none }
  { st with purchases := addPurchase st.purchases entry ts }

/-- `Resolved(Abandon)` (the "Take More Time to Decide" handler): tears the
overlay down and performs no store update at all. -/
def resolveAbandon (st : RunStore) : RunStore := st

/-! ## Interception registries

Elements are abstract identifiers (`Nat`).  JS `Set`/`Map` membership over
DOM elements becomes a predicate `Nat → Bool`.

The lightweight interceptor (`LightweightInterceptor` in
`src/content/intercept.tsx`) keeps three collections: `interceptedButtons`
(a `Set`), `processedButtons` (a `WeakSet` of already-decided elements)
and `eventListeners` (a `Map` element → attached guard listener).

The React interceptor (`CheckoutInterceptor`, second variant) keeps only
`interceptedListeners` (a `Map`). -/

/-- Registry state of `LightweightInterceptor`. -/
structure LWReg where
  intercepted : Nat → Bool
  processed : Nat → Bool
  listeners : Nat → Bool

/-- One element visited by `scanForCheckoutButtons`: guard it only when it
is neither currently intercepted nor already processed and it classifies
as a purchase button. -/
def lwScanStep (classified : Nat → Bool) (r : LWReg) (e : Nat) : LWReg :=
  if ¬r.intercepted e ∧ ¬r.processed e ∧ classified e then
    { intercepted := fun x => if x = e then true else r.intercepted x,
      processed := fun x => if x = e then true else r.processed x,
      listeners := fun x => if x = e then true else r.listeners x }
  else r

/-- `scanForCheckoutButtons`: visit every selector-matched element of the
page in order. -/
def lwScan (classified : Nat → Bool) (elems : List Nat) (r : LWReg) : LWReg :=
  elems.foldl (lwScanStep classified) r

/-- `proceedWithClick` registry effect, performed before the synthetic
events are dispatched: drop the element from `interceptedButtons`, mark it
`processed`, and remove its click listener. -/
def lwProceed (e : Nat) (r : LWReg) : LWReg :=
  { intercepted := fun x => if x = e then false else r.intercepted x,
    processed := fun x => if x = e then true else r.processed x,
    listeners := fun x => if x = e then false else r.listeners x }

/-- Registry state of the React `CheckoutInterceptor`: only the listener
map. -/
structure CIReg where
  listeners : Nat → Bool

/-- `interceptCheckoutButtons`: add an intercepting listener to every
detector-matched button that does not already have one. -/
def ciScan (elems : List Nat) (r : CIReg) : CIReg :=
  elems.foldl
    (fun r e =>
      if ¬r.listeners e then
        { listeners := fun x => if x = e then true else r.listeners x }
      else r) r

/-- `proceedWithOriginalAction` registry effect, performed before the
synthetic click is dispatched: remove the element's listener.  Nothing
marks the element as decided. -/
def ciProceed (e : Nat) (r : CIReg) : CIReg :=
  { listeners := fun x => if x = e then false else r.listeners x }

/-! ## Cooldown state machines

Two overlay implementations exist.  `LightweightInterceptor.showCooldown`
(`src/content/intercept.tsx`) drives a hand-rolled DOM overlay; the React
`CooldownTimer` component (`src/components/CooldownTimer.tsx`) drives the
modal rendered by `CheckoutInterceptor`.  Both schedule a skip-unlock
`setTimeout` at `Math.min(5000, seconds * 1000)` ms and a 1000 ms
countdown `setInterval`; the timeout is registered first, so at a shared
millisecond boundary it fires first.  We advance time in one-second steps
(`elapsedMs` grows by 1000 per tick) and fire exactly the callbacks the
event loop would run at that boundary. -/

/-- State of the lightweight overlay
(`LightweightInterceptor.showCooldown`). -/
structure LWOverlay where
  remaining : Int
  canSkip : Bool
  skipVisible : Bool
  timerActive : Bool
  skipTimeoutFired : Bool
  elapsedMs : Nat
  overlayPresent : Bool
  proceeded : Bool
  skipLabel : String
  deriving Repr, DecidableEq

/-- Overlay state right after `showCooldown(seconds, ...)` renders: full
countdown remaining, skip button hidden (`display: none`), both timers
pending. -/
def lwInit (d : Nat) : LWOverlay :=
  { remaining := (d : Int), canSkip := false, skipVisible := false,
    timerActive := true, skipTimeoutFired := false, elapsedMs := 0,
    overlayPresent := true, proceeded := false, skipLabel := "Proceed Anyway" }

/-- The skip-unlock `setTimeout(..., Math.min(5000, seconds * 1000))`:
when due at this boundary, set `canSkip` and reveal the skip button. -/
def lwFireSkip (d : Nat) (s : LWOverlay) : LWOverlay :=
  if ¬s.skipTimeoutFired ∧ min 5000 (d * 1000) ≤ s.elapsedMs + 1000 then
    { s with
      canSkip := true, skipVisible := true, skipTimeoutFired := true,
      elapsedMs := s.elapsedMs + 1000 }
  else { s with elapsedMs := s.elapsedMs + 1000 }

/-- The countdown `setInterval` callback: decrement `remaining`; on
reaching zero, clear the interval and relabel the skip button
"Continue Purchase" — nothing else happens. -/
def lwCount (s : LWOverlay) : LWOverlay :=
  if s.timerActive then
    if s.remaining - 1 ≤ 0 then
      { s with
        remaining := s.remaining - 1, timerActive := false,
        skipLabel := "Continue Purchase" }
    else { s with remaining := s.remaining - 1 }
  else s

/-- One second of wall-clock time: timeout first (registration order),
then the interval tick. -/
def lwTick (d : Nat) (s : LWOverlay) : LWOverlay := lwCount (lwFireSkip d s)

/-- The skip-button click handler: only acts when `remaining <= 0 ||
canSkip`; then it removes the overlay and invokes the proceed
continuation (`onComplete`). -/
def lwSkipClick (s : LWOverlay) : LWOverlay :=
  if s.remaining ≤ 0 ∨ s.canSkip = true then
    { s with overlayPresent := false, proceeded := true }
  else s

/-- The "Take More Time to Decide" click handler: removes the overlay and
nothing else. -/
def lwWaitClick (s : LWOverlay) : LWOverlay := { s with overlayPresent := false }

/-- Overlay state after `t` seconds with no user interaction. -/
def lwAfter (d t : Nat) : LWOverlay := (lwTick d)^[t] (lwInit d)

/-- State of the React `CooldownTimer` component: `timeLeft`/`canSkip`
`useState` hooks, the pending interval, and whether `onComplete` has been
invoked. -/
structure CTState where
  timeLeft : Int
  canSkip : Bool
  intervalActive : Bool
  skipFired : Bool
  elapsedMs : Nat
  completed : Bool
  deriving Repr, DecidableEq

/-- Component state on mount. -/
def ctInit (d : Nat) : CTState :=
  { timeLeft := (d : Int), canSkip := false, intervalActive := true,
    skipFired := false, elapsedMs := 0, completed := false }

/-- The skip-unlock `setTimeout(..., Math.min(5000, seconds * 1000))`. -/
def ctFireSkip (d : Nat) (s : CTState) : CTState :=
  if ¬s.skipFired ∧ min 5000 (d * 1000) ≤ s.elapsedMs + 1000 then
    { s with
      canSkip := true, skipFired := true,
      elapsedMs := s.elapsedMs + 1000 }
  else { s with elapsedMs := s.elapsedMs + 1000 }

/-- The countdown interval: `prev <= 1` clears the interval, invokes
`onComplete()` and sets `timeLeft` to 0; otherwise decrement. -/
def ctCount (s : CTState) : CTState :=
  if s.intervalActive then
    if s.timeLeft ≤ 1 then
      { s with timeLeft := 0, intervalActive := false, completed := true }
    else { s with timeLeft := s.timeLeft - 1 }
  else s

/-- One second of wall-clock time for the React timer. -/
def ctTick (d : Nat) (s : CTState) : CTState := ctCount (ctFireSkip d s)

/-- Component state after `t` seconds with no user interaction. -/
def ctAfter (d t : Nat) : CTState := (ctTick d)^[t] (ctInit d)

/-- Closed form of the lightweight overlay state after `t` quiet seconds:
skip unlocks once `min 5 d ≤ t`, the countdown stops at `t = d` (relabeling
the skip button), and nothing ever resolves Proceed on its own. -/
def lwState (d t : Nat) : LWOverlay :=
  { remaining := (d : Int) - (min t d : Nat),
    canSkip := decide (min 5 d ≤ t),
    skipVisible := decide (min 5 d ≤ t),
    timerActive := decide (t < d),
    skipTimeoutFired := decide (min 5 d ≤ t),
    elapsedMs := 1000 * t,
    overlayPresent := true,
    proceeded := false,
    skipLabel := if t < d then "Proceed Anyway" else "Continue Purchase" }

/-- Closed form of the React timer state after `t` quiet seconds: skip
unlocks once `min 5 d ≤ t`, and `onComplete` fires exactly when the
countdown reaches zero at `t = d`. -/
def ctState (d t : Nat) : CTState :=
  { timeLeft := (d : Int) - (min t d : Nat),
    canSkip := decide (min 5 d ≤ t),
    intervalActive := decide (t < d),
    skipFired := decide (min 5 d ≤ t),
    elapsedMs := 1000 * t,
    completed := decide (d ≤ t) }

/-! ## Button Classifier (`LightweightInterceptor.isPurchaseButton`,
`isExcludedSite`, `isLikelyEcommercePage` in `src/content/intercept.tsx`)

Page-level DOM queries (`document.querySelector` for price/cart markup)
are modelled as boolean fields of the page state; everything string-based
is computed exactly as the source does. -/

/-- The fixed purchase-intent vocabulary. -/
def purchaseKeywords : List String :=
  ["buy", "purchase", "checkout", "order", "pay", "complete",
   "add to cart", "proceed", "continue", "place order", "submit order"]

/-- The fixed exclusion vocabulary. -/
def excludeKeywords : List String :=
  ["cancel", "back", "return", "edit", "remove", "delete",
   "merge", "commit", "push", "pull", "fork", "clone",
   "create", "new", "save", "update", "submit pull", "submit issue"]

/-- The fixed exclusion list of non-commerce hostnames. -/
def excludedDomains : List String :=
  ["github.com", "gitlab.com", "bitbucket.org", "stackoverflow.com",
   "stackexchange.com", "reddit.com", "twitter.com", "x.com",
   "facebook.com", "instagram.com", "linkedin.com", "youtube.com",
   "google.com", "microsoft.com", "apple.com", "developer.mozilla.org",
   "docs.google.com", "notion.so", "slack.com", "discord.com", "zoom.us"]

/-- E-commerce indicators looked for in the URL and hostname. -/
def ecommerceIndicators : List String :=
  ["/checkout", "/cart", "/buy", "/purchase", "/order", "/payment",
   "shop", "store", "market", "commerce", "retail"]

/-- The page-level signals the classifier reads: location strings plus the
results of the two DOM queries for price-shaped and cart-shaped markup. -/
structure Page where
  hostname : String
  url : String
  hasPriceElements : Bool
  hasCartElements : Bool
  deriving Repr, DecidableEq

/-- The per-element signals: `textContent`, `aria-label`, `className` and
`id`. -/
structure PageElement where
  text : String
  ariaLabel : String
  className : String
  id : String
  deriving Repr, DecidableEq

/-- `isExcludedSite`: the lowercased hostname contains one of the excluded
domains as a substring. -/
def isExcludedSite (p : Page) : Bool :=
  excludedDomains.any (fun d => strContains (strToLower p.hostname) d)

/-- `isLikelyEcommercePage`: an e-commerce indicator occurs in the URL or
hostname, or the page has price-shaped or cart-shaped elements. -/
def isLikelyEcommercePage (p : Page) : Bool :=
  ecommerceIndicators.any
      (fun i => strContains (strToLower p.url) i || strContains (strToLower p.hostname) i)
    || p.hasPriceElements || p.hasCartElements

/-- The purchase-keyword test: text, ARIA label or class name contains a
purchase keyword.  The element `id` is NOT consulted here. -/
def hasPurchaseKeyword (e : PageElement) : Bool :=
  purchaseKeywords.any (fun k =>
    strContains (strToLower e.text) k || strContains (strToLower e.ariaLabel) k ||
    strContains (strToLower e.className) k)

/-- The exclusion-keyword test: text, ARIA label, class name OR `id`
contains an exclusion keyword. -/
def hasExcludeKeyword (e : PageElement) : Bool :=
  excludeKeywords.any (fun k =>
    strContains (strToLower e.text) k || strContains (strToLower e.ariaLabel) k ||
    strContains (strToLower e.className) k || strContains (strToLower e.id) k)

/-- `isPurchaseButton`: false on excluded sites; otherwise requires a
purchase keyword, no exclusion keyword, and the e-commerce plausibility
gate. -/
def isPurchaseButton (p : Page) (e : PageElement) : Bool :=
  if isExcludedSite p then false
  else hasPurchaseKeyword e && !hasExcludeKeyword e && isLikelyEcommercePage p

/-- A commerce page (hostname contains "shop", not on the exclusion
list). -/
def demoPage : Page :=
  { hostname := "shop.example.net", url := "https://shop.example.net/item",
    hasPriceElements := false, hasCartElements := false }

/-- An element whose only purchase signal is its `id`. -/
def demoIdOnlyButton : PageElement :=
  { text := "", ariaLabel := "", className := "", id := "buy-now" }

/-- An element with purchase-intent text and no exclusion keyword. -/
def demoTextButton : PageElement :=
  { text := "buy now", ariaLabel := "", className := "", id := "" }

/-- A page on an excluded hostname. -/
def excludedPage : Page :=
  { hostname := "github.com", url := "https://github.com/some/repo",
    hasPriceElements := false, hasCartElements := false }

/-! ## Purchase categorization (`categorizePurchase` in the price-analysis
utility)

Keyword-frequency vote: each category's score is the total number of
(global-regex) occurrences of its keywords in the lowercased
concatenation of URL, product name, page content and document title.
`Object.entries(scores).sort(([,a],[,b]) => b - a)[0]` with a stable sort
(guaranteed since ES2019) yields the earliest-declared category among
those with the maximal score; `pickBest` renders exactly that. -/

/-- The fixed category → keyword-list table, in declaration order. -/
def purchaseCategories : List (String × List String) :=
  [("electronics",
    ["laptop", "computer", "phone", "tablet", "headphones", "speaker", "tv",
     "monitor", "camera", "gaming", "console", "iphone", "android", "macbook",
     "ipad", "watch", "electronics", "tech", "gadget", "device", "smart",
     "wireless", "bluetooth"]),
   ("clothing",
    ["shirt", "pants", "dress", "shoes", "jacket", "coat", "jeans", "sweater",
     "hoodie", "sneakers", "boots", "clothing", "fashion", "apparel", "wear",
     "outfit", "style", "footwear", "accessory", "hat", "bag", "jewelry"]),
   ("home",
    ["furniture", "chair", "table", "bed", "sofa", "lamp", "decor", "kitchen",
     "bathroom", "bedroom", "living", "dining", "storage", "organization",
     "home", "house", "apartment", "room", "space", "interior", "design"]),
   ("health",
    ["vitamin", "supplement", "medicine", "health", "fitness", "wellness",
     "beauty", "skincare", "cosmetic", "makeup", "personal", "care",
     "hygiene"]),
   ("books",
    ["book", "ebook", "kindle", "novel", "textbook", "magazine", "journal",
     "reading", "literature", "education", "learning", "study", "academic"]),
   ("food",
    ["food", "snack", "drink", "coffee", "tea", "meal", "grocery",
     "restaurant", "delivery", "takeout", "dining", "cuisine", "recipe",
     "ingredient"]),
   ("entertainment",
    ["game", "movie", "music", "streaming", "subscription", "ticket", "event",
     "concert", "show", "entertainment", "hobby", "sport", "recreation"]),
   ("travel",
    ["flight", "hotel", "travel", "vacation", "trip", "booking", "rental",
     "accommodation", "transportation", "tourism", "luggage", "trip"])]

/-- One category's score: the summed occurrence counts of its keywords. -/
def categoryScore (text : String) (keywords : List String) : Nat :=
  keywords.foldl (fun score k => score + countOccs text k) 0

/-- The text the vote runs over:
`[url, productName || '', pageContent || '', title]` lowercased and joined
with spaces. -/
def analyzedText (url : String) (productName pageContent : Option String)
    (title : String) : String :=
  String.intercalate " "
    [strToLower url, strToLower (productName.getD ""),
     strToLower (pageContent.getD ""), strToLower title]

/-- All category scores, in declaration order. -/
def categoryScores (url : String) (productName pageContent : Option String)
    (title : String) : List (String × Nat) :=
  purchaseCategories.map
    (fun p => (p.1, categoryScore (analyzedText url productName pageContent title) p.2))

/-- The head of the stable descending sort: the earliest entry whose score
is maximal. -/
def pickBest : List (String × Nat) → Option (String × Nat)
  | [] => none
  | p :: ps =>
    match pickBest ps with
    | none => some p
    | some q => if q.2 > p.2 then some q else some p

/-- `categorizePurchase(url, productName?, pageContent?)`: the
highest-scoring category, or "general" when the best score is zero. -/
def categorizePurchase (url : String) (productName pageContent : Option String)
    (title : String) : String :=
  match pickBest (categoryScores url productName pageContent title) with
  | some p => if p.2 > 0 then p.1 else "general"
  | none => "general"

/-- Context of the worked counterexample run: a $25 electronics item. -/
def demoContext : PurchaseContext :=
  { productName := some "Gadget", price := some 25, priceText := some "$25.00",
    currency := some "USD", category := some "electronics" }

/-- The all-empty initial store. -/
def initialStore : RunStore :=
  { purchases := [], totalIntercepts := 0, savings := defaultSavingsData }

/-! ## Price-text parsing (`extractPriceFromText` in the price-analysis
utility)

The source tries six regexes in order — `$`, `€`, `£` (amount with
optional `.dd`), `¥` (no decimals), then case-insensitive `NUMBER USD` /
`NUMBER EUR` suffix forms — and finally a bare-number fallback.  Each
amount has the shape `\d{1,3}(?:,\d{3})*(?:\.\d{2})?`.  The scanners
below implement exactly the leftmost-match/greedy-with-backtracking
semantics of those regexes on character lists.  Matched amounts are kept
as digit lists (integer digits without the thousands separators, and
fraction digits); `priceVal` is the `parseFloat` of the comma-stripped
capture (never NaN since a capture starts with a digit).  The JS guards
`price > 0` and `price < 1000000` are computed on the digit values; the
lemmas `priceVal_pos_iff` and `priceVal_lt_ceiling` show this agrees with
the comparisons on the parsed number. -/

/-- `\d`: an ASCII digit. -/
def isDigitC (c : Char) : Bool := 48 ≤ c.toNat && c.toNat ≤ 57

/-- `\s` on the whitespace actually occurring in price text. -/
def isWsC (c : Char) : Bool := c = ' ' || c = '\t' || c = '\n' || c = '\r'

/-- Greedy `\s*`. -/
def skipWs : List Char → List Char
  | [] => []
  | c :: rest => if isWsC c then skipWs rest else c :: rest

/-- Take up to `n` leading digits (greedy `\d{1,n}`): the digits taken and
the remainder. -/
def takeDigits : Nat → List Char → List Char × List Char
  | 0, l => ([], l)
  | _ + 1, [] => ([], [])
  | n + 1, c :: rest =>
    if isDigitC c then
      let p := takeDigits n rest
      (c :: p.1, p.2)
    else ([], c :: rest)

/-- Greedy `(?:,\d{3})*`: the group digits (commas dropped, as by
`.replace(/,/g, '')`) and the remainder. -/
def groupLoop : List Char → List Char × List Char
  | ',' :: a :: b :: c :: rest =>
    if isDigitC a ∧ isDigitC b ∧ isDigitC c then
      let p := groupLoop rest
      (a :: b :: c :: p.1, p.2)
    else ([], ',' :: a :: b :: c :: rest)
  | l => ([], l)

/-- Optional `(?:\.\d{2})?` (disabled for the `¥` pattern, which has no
decimal group): the two fraction digits if taken, and the remainder. -/
def decLoop (allowDecimal : Bool) : List Char → List Char × List Char
  | '.' :: a :: b :: rest =>
    if allowDecimal ∧ isDigitC a ∧ isDigitC b then ([a, b], rest)
    else ([], '.' :: a :: b :: rest)
  | l => ([], l)

/-- The whole amount `\d{1,3}(?:,\d{3})*(?:\.\d{2})?` at the start of
`l`, greedily (nothing follows the capture in the symbol-prefixed
patterns, so no backtracking arises): integer digits, fraction digits and
the remainder. -/
def parseNumAt (allowDecimal : Bool) (l : List Char) :
    Option ((List Char × List Char) × List Char) :=
  match takeDigits 3 l with
  | ([], _) => none
  | (c :: ds, r1) =>
    match groupLoop r1 with
    | (dg, r2) =>
      match decLoop allowDecimal r2 with
      | (df, r3) => some ((c :: ds ++ dg, df), r3)

/-- Leftmost match of `SYM\s*(amount)`: scan for the first occurrence of
the currency symbol that is followed (after whitespace) by an amount; on
a failed attempt the scan resumes one position further, as the regex
engine does. -/
def findSymbolMatch (sym : Char) (allowDecimal : Bool) :
    List Char → Option (List Char × List Char)
  | [] => none
  | c :: rest =>
    if c = sym then
      match parseNumAt allowDecimal (skipWs rest) with
      | some (p, _) => some p
      | none => findSymbolMatch sym allowDecimal rest
    else findSymbolMatch sym allowDecimal rest

/-- Case-insensitive literal test (`/i` flag on the USD/EUR patterns). -/
def litPrefixCI : List Char → List Char → Bool
  | [], _ => true
  | _ :: _, [] => false
  | a :: as, b :: bs => (lowerChar a = lowerChar b) && litPrefixCI as bs

/-- The nonempty prefixes of the (up to 3) leading digits, longest first:
the candidate widths of a greedy `\d{1,3}` under backtracking. -/
def prefixesDesc (l : List Char) : List (List Char) :=
  (List.range l.length).map (fun i => l.take (l.length - i))

/-- All stops of the greedy `(?:,\d{3})*`, deepest (most repetitions)
first: accumulated group digits and the corresponding remainder. -/
def groupRests : List Char → List (List Char × List Char)
  | ',' :: a :: b :: c :: rest =>
    if isDigitC a ∧ isDigitC b ∧ isDigitC c then
      (groupRests rest).map (fun p => (a :: b :: c :: p.1, p.2)) ++
        [([], ',' :: a :: b :: c :: rest)]
    else [([], ',' :: a :: b :: c :: rest)]
  | l => [([], l)]

/-- The two stops of the optional `(?:\.\d{2})?`, with-decimal first. -/
def decOptions : List Char → List (List Char × List Char)
  | '.' :: a :: b :: rest =>
    if isDigitC a ∧ isDigitC b then [([a, b], rest), ([], '.' :: a :: b :: rest)]
    else [([], '.' :: a :: b :: rest)]
  | l => [([], l)]

/-- First defined value in backtracking order. -/
def firstSome {α : Type} (l : List (Option α)) : Option α :=
  (l.filterMap id).head?

/-- Try `(amount)\s*LIT` anchored at `l` (which starts with a digit),
enumerating the quantifier choices in regex backtracking order. -/
def trySuffixAt (lit : List Char) (l : List Char) : Option (List Char × List Char) :=
  firstSome <| (prefixesDesc (takeDigits 3 l).1).map fun di =>
    firstSome <| (groupRests (l.drop di.length)).map fun g =>
      firstSome <| (decOptions g.2).map fun d =>
        if litPrefixCI lit (skipWs d.2) then some (di ++ g.1, d.1) else none

/-- Leftmost match of `(amount)\s*LIT`: try every position (the pattern
can only start at a digit), left to right. -/
def findSuffixMatch (lit : List Char) : List Char → Option (List Char × List Char)
  | [] => none
  | c :: rest =>
    if isDigitC c then
      match trySuffixAt lit (c :: rest) with
      | some p => some p
      | none => findSuffixMatch lit rest
    else findSuffixMatch lit rest

/-- Decimal value of a digit list. -/
def digitsToNat (l : List Char) : Nat :=
  l.foldl (fun n c => 10 * n + (c.toNat - 48)) 0

/-- `parseFloat` of the comma-stripped capture: integer digits plus
fraction digits over the matching power of ten. -/
def priceVal (di df : List Char) : ℚ :=
  (digitsToNat di : ℚ) + (digitsToNat df : ℚ) / (10 : ℚ) ^ df.length

/-- The symbol-prefixed currency patterns, in source order; the flag marks
whether the regex has the decimal group (`¥` does not). -/
def symbolPatterns : List (Char × String × Bool) :=
  [('$', "USD", true), ('€', "EUR", true), ('£', "GBP", true), ('¥', "JPY", false)]

/-- The suffix ISO-code patterns, in source order. -/
def suffixPatterns : List (String × String) :=
  [("USD", "USD"), ("EUR", "EUR")]

/-- The symbol-pattern loop: on a match whose parsed value is positive,
return it; otherwise fall through to the next pattern (the source only
`return`s inside the `if`). -/
def tryCurrencyPatterns (cs : List Char) :
    List (Char × String × Bool) → Option ((List Char × List Char) × String)
  | [] => none
  | (sym, code, dec) :: ps =>
    match findSymbolMatch sym dec cs with
    | some p =>
      if 0 < digitsToNat p.1 + digitsToNat p.2 then some (p, code)
      else tryCurrencyPatterns cs ps
    | none => tryCurrencyPatterns cs ps

/-- The suffix-pattern loop, same guard and fall-through. -/
def trySuffixPatterns (cs : List Char) :
    List (String × String) → Option ((List Char × List Char) × String)
  | [] => none
  | (lit, code) :: ps =>
    match findSuffixMatch lit.toList cs with
    | some p =>
      if 0 < digitsToNat p.1 + digitsToNat p.2 then some (p, code)
      else trySuffixPatterns cs ps
    | none => trySuffixPatterns cs ps

/-- Leftmost match of the bare fallback pattern
`(\d{1,3}(?:,\d{3})*(?:\.\d{2})?)`. -/
def findBareNumber : List Char → Option (List Char × List Char)
  | [] => none
  | c :: rest =>
    if isDigitC c then
      match parseNumAt true (c :: rest) with
      | some (p, _) => some p
      | none => none
    else findBareNumber rest

/-- The scanning part of `extractPriceFromText`: which digits (if any)
are accepted, and under which currency.  `none` currency marks the bare
fallback, which also enforces the `price < 1000000` sanity ceiling. -/
def extractPriceParts (text : String) :
    Option ((List Char × List Char) × Option String) :=
  if text = "" then none
  else
    match tryCurrencyPatterns text.toList symbolPatterns with
    | some (p, code) => some (p, some code)
    | none =>
      match trySuffixPatterns text.toList suffixPatterns with
      | some (p, code) => some (p, some code)
      | none =>
        match findBareNumber text.toList with
        | some p =>
          if 0 < digitsToNat p.1 + digitsToNat p.2 ∧ digitsToNat p.1 < 1000000 then
            some (p, none)
          else none
        | none => none

/-- `extractPriceFromText(text)`: the parsed price and currency, or
`(null, null)`. -/
def extractPriceFromText (text : String) : Option ℚ × Option String :=
  match extractPriceParts text with
  | some (p, cur) => (some (priceVal p.1 p.2), cur)
  | none => (none, none)

/-! ## Claim theorems: storage -/

/-- **C3.** Every purchase record written via `addPurchase` is read back
unchanged except for the assigned id and list position: the new record is
prepended (newest-first), the stored list never exceeds 100 entries, and
only the oldest entries beyond the cap are dropped. -/
theorem addPurchase_roundtrip (stored : List PurchaseEntry)
    (p : PurchaseInput) (id : Nat) :
    getPurchases (addPurchase stored p id) = toEntry p id :: stored.take 99 ∧
    (getPurchases (addPurchase stored p id)).head? = some (toEntry p id) ∧
    stripId (toEntry p id) = p ∧
    (addPurchase stored p id).length ≤ 100 := by
  refine ⟨?_, ?_, rfl, ?_⟩
  · simp [getPurchases, addPurchase, List.take_succ_cons]
  · simp [getPurchases, addPurchase, List.take_succ_cons]
  · simp [addPurchase]

/-- **C10.** `updateSettings` with a partial object changes only the fields
present in it: every absent field keeps the value `getSettings` would have
returned before the update (stored settings first filled from defaults);
in particular updating `cooldownSeconds` alone leaves `enableNudges` and
`enableScamDetection` unchanged. -/
theorem updateSettings_frame (stored : Option Settings) (u : PartialSettings) :
    (u.cooldownSeconds = none →
      (updateSettings stored u).cooldownSeconds = (getSettings stored).cooldownSeconds) ∧
    (u.enableNudges = none →
      (updateSettings stored u).enableNudges = (getSettings stored).enableNudges) ∧
    (u.enableScamDetection = none →
      (updateSettings stored u).enableScamDetection = (getSettings stored).enableScamDetection) ∧
    (∀ n, updateSettings stored ⟨some n, none, none⟩ =
      { getSettings stored with cooldownSeconds := n }) := by
  refine ⟨fun h => ?_, fun h => ?_, fun h => ?_, fun n => ?_⟩
  · simp [updateSettings, h]
  · simp [updateSettings, h]
  · simp [updateSettings, h]
  · simp [updateSettings]

/-- Witness for C10 at a concrete input: updating only `cooldownSeconds`
in the default settings leaves the two toggles untouched. -/
theorem updateSettings_frame_witness :
    updateSettings none ⟨some 60, none, none⟩ =
      { cooldownSeconds := 60, enableNudges := true, enableScamDetection := true } := by
  have h := (updateSettings_frame none ⟨some 60, none, none⟩).2.2.2 60
  simpa [getSettings, defaultSettings] using h

/-! ## Claim theorems: the savings fold (C4) -/

lemma applyEvent_fields (s : SavingsData) (e : SaveEvent) (h : 0 < e.price) :
    (applyEvent s e).totalSaved = s.totalSaved + e.price ∧
    (applyEvent s e).interceptsCount = s.interceptsCount + 1 ∧
    (∀ c, (applyEvent s e).categorySavings c =
      s.categorySavings c + (if e.category = some c then e.price else 0)) ∧
    (∀ m, (applyEvent s e).monthlySavings m =
      s.monthlySavings m + (if e.monthKey = m then e.price else 0)) ∧
    (applyEvent s e).biggestSave.amount = max s.biggestSave.amount e.price := by
  have hne : e.price ≠ 0 := ne_of_gt h
  refine ⟨?_, ?_, ?_, ?_, ?_⟩
  · simp [applyEvent, recordSavings, hne]
  · simp [applyEvent, recordSavings, hne]
  · intro c
    rcases hcat : e.category with _ | c0
    · simp [applyEvent, recordSavings, hne, hcat]
    · by_cases hc : c = c0
      · subst hc; simp [applyEvent, recordSavings, hne, hcat]
      · simp [applyEvent, recordSavings, hne, hcat, hc, Ne.symm hc]
  · intro m
    by_cases hm : m = e.monthKey
    · subst hm; simp [applyEvent, recordSavings, hne]
    · simp [applyEvent, recordSavings, hne, hm, Ne.symm hm]
  · by_cases hb : s.biggestSave.amount < e.price
    · simp [applyEvent, recordSavings, hne, hb, max_eq_right hb.le]
    · simp [applyEvent, recordSavings, hne, hb, max_eq_left (le_of_not_lt hb)]

lemma foldSavings_fields (evs : List SaveEvent)
    (hpos : ∀ e ∈ evs, 0 < e.price) (s : SavingsData) :
    (evs.foldl applyEvent s).totalSaved = s.totalSaved + (evs.map SaveEvent.price).sum ∧
    (evs.foldl applyEvent s).interceptsCount = s.interceptsCount + evs.length ∧
    (∀ c, (evs.foldl applyEvent s).categorySavings c = s.categorySavings c +
      ((evs.filter (fun e => e.category = some c)).map SaveEvent.price).sum) ∧
    (∀ m, (evs.foldl applyEvent s).monthlySavings m = s.monthlySavings m +
      ((evs.filter (fun e => e.monthKey = m)).map SaveEvent.price).sum) ∧
    (evs.foldl applyEvent s).biggestSave.amount =
      (evs.map SaveEvent.price).foldl max s.biggestSave.amount := by
  induction evs generalizing s with
  | nil => simp
  | cons e evs ih =>
    have he : 0 < e.price := hpos e (List.mem_cons_self e evs)
    have hrest : ∀ e' ∈ evs, 0 < e'.price :=
      fun e' h' => hpos e' (List.mem_cons_of_mem e h')
    obtain ⟨h1, h2, h3, h4, h5⟩ := applyEvent_fields s e he
    obtain ⟨g1, g2, g3, g4, g5⟩ := ih hrest (applyEvent s e)
    refine ⟨?_, ?_, ?_, ?_, ?_⟩
    · simp only [List.foldl_cons, g1, h1, List.map_cons, List.sum_cons]; ring
    · simp only [List.foldl_cons, g2, h2, List.length_cons]; ring
    · intro c
      rw [List.foldl_cons, g3 c, h3 c]
      by_cases hc : e.category = some c
      · simp only [List.filter_cons, if_pos hc, hc, decide_true_eq_true,
          if_pos rfl, List.map_cons, List.sum_cons]
        simp [hc]
        ring
      · simp only [List.filter_cons, if_neg hc]
        simp [hc]
    · intro m
      rw [List.foldl_cons, g4 m, h4 m]
      by_cases hm : e.monthKey = m
      · simp only [List.filter_cons]
        simp [hm]
        ring
      · simp only [List.filter_cons]
        simp [hm]
    · simp only [List.foldl_cons, g5, h5, List.map_cons]

lemma le_foldl_max (l : List ℚ) (a : ℚ) :
    a ≤ l.foldl max a ∧ ∀ x ∈ l, x ≤ l.foldl max a := by
  induction l generalizing a with
  | nil => simp
  | cons y l ih =>
    obtain ⟨ha, hx⟩ := ih (max a y)
    refine ⟨le_trans (le_max_left a y) ha, ?_⟩
    intro x hxl
    rcases List.mem_cons.mp hxl with rfl | hxl
    · exact le_trans (le_max_right a x) ha
    · exact hx x hxl

lemma foldl_max_mem (l : List ℚ) (a : ℚ) :
    l.foldl max a = a ∨ l.foldl max a ∈ l := by
  induction l generalizing a with
  | nil => simp
  | cons y l ih =>
    rcases ih (max a y) with h | h
    · rcases max_choice a y with hm | hm
      · exact Or.inl (by rw [List.foldl_cons, h, hm])
      · exact Or.inr (by rw [List.foldl_cons, h, hm]; exact List.mem_cons_self y l)
    · exact Or.inr (List.mem_cons_of_mem y h)

/-- **C4.** Savings recording is a fold over abandoned-purchase events:
`totalSaved` is the sum of all recorded amounts, each category and month
bucket is the sum of its amounts, `interceptsCount` counts the events,
and `biggestSave.amount` is the maximum single recorded amount; in the
worked example (30 in "Books" then 10 in "Books") the ledger reads
`totalSaved = 40`, `categorySavings "Books" = 40`,
`biggestSave.amount = 30`. -/
theorem savings_fold (evs : List SaveEvent) (hpos : ∀ e ∈ evs, 0 < e.price) :
    (foldSavings evs).totalSaved = (evs.map SaveEvent.price).sum ∧
    (foldSavings evs).interceptsCount = evs.length ∧
    (∀ c, (foldSavings evs).categorySavings c =
      ((evs.filter (fun e => e.category = some c)).map SaveEvent.price).sum) ∧
    (∀ m, (foldSavings evs).monthlySavings m =
      ((evs.filter (fun e => e.monthKey = m)).map SaveEvent.price).sum) ∧
    (∀ e ∈ evs, e.price ≤ (foldSavings evs).biggestSave.amount) ∧
    (evs ≠ [] → (foldSavings evs).biggestSave.amount ∈ evs.map SaveEvent.price) ∧
    (foldSavings demoEvents).totalSaved = 40 ∧
    (foldSavings demoEvents).categorySavings "Books" = 40 ∧
    (foldSavings demoEvents).biggestSave.amount = 30 ∧
    (foldSavings demoEvents).interceptsCount = 2 := by
  obtain ⟨h1, h2, h3, h4, h5⟩ := foldSavings_fields evs hpos defaultSavingsData
  have hzero : defaultSavingsData.biggestSave.amount = 0 := rfl
  refine ⟨?_, ?_, ?_, ?_, ?_, ?_,
    by norm_num [foldSavings, demoEvents, applyEvent, recordSavings, defaultSavingsData],
    by norm_num [foldSavings, demoEvents, applyEvent, recordSavings, defaultSavingsData],
    by norm_num [foldSavings, demoEvents, applyEvent, recordSavings, defaultSavingsData],
    by norm_num [foldSavings, demoEvents, applyEvent, recordSavings, defaultSavingsData]⟩
  · simpa [foldSavings, defaultSavingsData] using h1
  · simpa [foldSavings, defaultSavingsData] using h2
  · intro c; simpa [foldSavings, defaultSavingsData] using h3 c
  · intro m; simpa [foldSavings, defaultSavingsData] using h4 m
  · intro e he
    have := (le_foldl_max (evs.map SaveEvent.price) 0).2 e.price
      (List.mem_map_of_mem SaveEvent.price he)
    rw [foldSavings, h5, hzero]
    exact this
  · intro hne
    rw [foldSavings, h5, hzero]
    rcases foldl_max_mem (evs.map SaveEvent.price) 0 with h | h
    · exfalso
      obtain ⟨e0, he0⟩ := List.exists_mem_of_ne_nil evs hne
      have hle := (le_foldl_max (evs.map SaveEvent.price) 0).2 e0.price
        (List.mem_map_of_mem SaveEvent.price he0)
      rw [h] at hle
      exact absurd hle (not_le.mpr (hpos e0 he0))
    · exact h

/-- Witness for C4 at the spec's worked example: the two "Books" events
have positive amounts, and the fold yields count 2 and total 40. -/
theorem savings_fold_witness :
    (∀ e ∈ demoEvents, 0 < e.price) ∧
    (foldSavings demoEvents).totalSaved = (demoEvents.map SaveEvent.price).sum ∧
    (foldSavings demoEvents).interceptsCount = demoEvents.length := by
  have h := savings_fold demoEvents (by decide)
  exact ⟨by decide, h.1, h.2.1⟩

/-! ## Claim theorems: when the ledger is fed (C1) -/

/-- **C1 counterexample.** A run that resolves `Proceed` does not leave
the Savings Ledger unchanged: for the worked $25 run the total rises to
25 already, because the ledger is fed at interception time. -/
theorem proceed_run_changes_ledger :
    (resolveProceed "https://shop.example/checkout" 2
      (interceptStep demoContext "https://shop.example/checkout" 1 "2025-01"
        initialStore)).savings.totalSaved = 25 ∧
    initialStore.savings.totalSaved = 0 := by
  constructor
  · norm_num [resolveProceed, interceptStep, recordSavings, demoContext,
      initialStore, defaultSavingsData]
  · norm_num [initialStore, defaultSavingsData]

/-- **C1 (amended).** The Savings Ledger is fed in the interception step,
not in the Abandon path: whenever a nonzero price was extracted,
`recordSavings` runs at `Idle → Counting` time, and neither resolution
touches the ledger afterwards — a Proceed run and an Abandon run leave
the ledger in the same (already updated) state, and only a run with no
extracted price leaves it unchanged. -/
theorem ledger_fed_at_intercept (ctx : PurchaseContext) (url : String)
    (ts : Nat) (monthKey : String) (url2 : String) (ts2 : Nat) (st : RunStore) :
    (resolveProceed url2 ts2 (interceptStep ctx url ts monthKey st)).savings =
      (interceptStep ctx url ts monthKey st).savings ∧
    (resolveAbandon (interceptStep ctx url ts monthKey st)).savings =
      (interceptStep ctx url ts monthKey st).savings ∧
    (interceptStep ctx url ts monthKey st).savings =
      (match ctx.price with
       | some p => if p ≠ 0 then recordSavings ctx monthKey ts st.savings
                   else st.savings
       | none => st.savings) ∧
    (ctx.price = none →
      (resolveProceed url2 ts2 (interceptStep ctx url ts monthKey st)).savings =
        st.savings) := by
  refine ⟨rfl, rfl, ?_, ?_⟩
  · rcases hp : ctx.price with _ | p
    · simp [interceptStep, hp]
    · by_cases h0 : p = 0 <;> simp [interceptStep, hp, h0]
  · intro hp
    simp [resolveProceed, interceptStep, hp]

/-- Witness for C1's amended theorem: a price-less run leaves the ledger
untouched through the Proceed resolution. -/
theorem ledger_fed_at_intercept_witness :
    (resolveProceed "https://shop.example/checkout" 2
      (interceptStep
        { productName := none, price := none, priceText := none,
          currency := none, category := none }
        "https://shop.example/checkout" 1 "2025-01" initialStore)).savings =
      initialStore.savings := by
  exact (ledger_fed_at_intercept
    { productName := none, price := none, priceText := none,
      currency := none, category := none }
    "https://shop.example/checkout" 1 "2025-01"
    "https://shop.example/checkout" 2 initialStore).2.2.2 rfl

/-! ## Claim theorems: replay without re-interception (C2) -/

lemma lwScanStep_preserves (classified : Nat → Bool) (r : LWReg) (a e : Nat)
    (hp : r.processed e = true) :
    (lwScanStep classified r a).processed e = true ∧
    (lwScanStep classified r a).listeners e = r.listeners e := by
  unfold lwScanStep
  split
  next hcond =>
    have hea : e ≠ a := by
      intro h
      subst h
      exact hcond.2.1 (by simp [hp])
    constructor
    · simp [hea, hp]
    · simp [hea]
  next => exact ⟨hp, rfl⟩

lemma lwScan_preserves (classified : Nat → Bool) (elems : List Nat)
    (r : LWReg) (e : Nat) (hp : r.processed e = true) :
    (lwScan classified elems r).processed e = true ∧
    (lwScan classified elems r).listeners e = r.listeners e := by
  induction elems generalizing r with
  | nil => exact ⟨hp, rfl⟩
  | cons a elems ih =>
    obtain ⟨h1, h2⟩ := lwScanStep_preserves classified r a e hp
    obtain ⟨g1, g2⟩ := ih (lwScanStep classified r a) h1
    exact ⟨g1, by rw [lwScan, List.foldl_cons] at *; rw [g2, h2]⟩

/-- **C2 counterexample.** In the React `CheckoutInterceptor`, after the
Proceed resolution removes the guard listener, a later Observation Loop
re-scan re-guards the very same element (nothing marks it decided): the
element is unguarded right after `proceedWithOriginalAction`, and guarded
again after one more `interceptCheckoutButtons` pass. -/
theorem rescan_reguards_element :
    (ciProceed 7 (ciScan [7] ⟨fun _ => false⟩)).listeners 7 = false ∧
    (ciScan [7] (ciProceed 7 (ciScan [7] ⟨fun _ => false⟩))).listeners 7 = true := by
  decide

/-- **C2 (amended).** In the lightweight interceptor the invariant holds
in full: the Proceed path removes the guard listener and marks the element
processed before the synthetic activation is dispatched, and no later
re-scan re-guards that element.  In the React `CheckoutInterceptor` the
listener is likewise removed before the replay (so the replay itself is
not re-intercepted), but the element is not marked as decided, so a later
re-scan re-guards it. -/
theorem replay_not_reintercepted (e : Nat) (r : LWReg) (r' : CIReg)
    (classified : Nat → Bool) (elems : List Nat) :
    (lwProceed e r).listeners e = false ∧
    (lwProceed e r).processed e = true ∧
    (lwScan classified elems (lwProceed e r)).listeners e = false ∧
    (lwScan classified elems (lwProceed e r)).processed e = true ∧
    (ciProceed e r').listeners e = false := by
  have hp : (lwProceed e r).processed e = true := by simp [lwProceed]
  obtain ⟨g1, g2⟩ := lwScan_preserves classified elems (lwProceed e r) e hp
  refine ⟨by simp [lwProceed], hp, ?_, g1, by simp [ciProceed]⟩
  rw [g2]
  simp [lwProceed]

/-! ## Claim theorems: skip unlock (C5) and countdown-zero resolution (C6) -/

lemma lwTick_state (d : Nat) (hd : 0 < d) (t : Nat) :
    lwTick d (lwState d t) = lwState d (t + 1) := by
  have hmul : min 5000 (d * 1000) = 1000 * min 5 d := by omega
  unfold lwTick lwFireSkip lwCount lwState
  simp only [hmul]
  split_ifs
  all_goals
    try simp only [decide_eq_true_eq, decide_eq_false_iff_not, Bool.not_eq_true,
      not_and_or, not_le, not_lt, not_not] at *
  all_goals simp only [LWOverlay.mk.injEq]
  all_goals repeat' apply And.intro
  all_goals
    first
      | rfl
      | trivial
      | omega
      | (exfalso; omega)
      | (rw [eq_comm, decide_eq_true_eq]; omega)
      | (rw [eq_comm, decide_eq_false_iff_not]; omega)
      | (rw [decide_eq_true_eq]; omega)
      | (rw [decide_eq_false_iff_not]; omega)
      | (rw [decide_eq_decide]; constructor <;> intro <;> omega)
      | (split_ifs <;> first | rfl | omega | (exfalso; omega))

lemma lwAfter_eq (d : Nat) (hd : 0 < d) (t : Nat) :
    lwAfter d t = lwState d t := by
  induction t with
  | zero =>
    unfold lwAfter lwState
    simp only [Function.iterate_zero_apply, lwInit, LWOverlay.mk.injEq]
    repeat' apply And.intro
    all_goals
    first
      | rfl
      | trivial
      | omega
      | (exfalso; omega)
      | (rw [eq_comm, decide_eq_true_eq]; omega)
      | (rw [eq_comm, decide_eq_false_iff_not]; omega)
      | (rw [decide_eq_true_eq]; omega)
      | (rw [decide_eq_false_iff_not]; omega)
      | (rw [decide_eq_decide]; constructor <;> intro <;> omega)
      | (split_ifs <;> first | rfl | omega | (exfalso; omega))
  | succ t ih =>
    have hstep : lwAfter d (t + 1) = lwTick d (lwAfter d t) :=
      Function.iterate_succ_apply' _ _ _
    rw [hstep, ih, lwTick_state d hd t]

lemma ctTick_state (d : Nat) (hd : 0 < d) (t : Nat) :
    ctTick d (ctState d t) = ctState d (t + 1) := by
  have hmul : min 5000 (d * 1000) = 1000 * min 5 d := by omega
  unfold ctTick ctFireSkip ctCount ctState
  simp only [hmul]
  split_ifs
  all_goals
    try simp only [decide_eq_true_eq, decide_eq_false_iff_not, Bool.not_eq_true,
      not_and_or, not_le, not_lt, not_not] at *
  all_goals simp only [CTState.mk.injEq]
  all_goals repeat' apply And.intro
  all_goals
    first
      | rfl
      | trivial
      | omega
      | (exfalso; omega)
      | (rw [eq_comm, decide_eq_true_eq]; omega)
      | (rw [eq_comm, decide_eq_false_iff_not]; omega)
      | (rw [decide_eq_true_eq]; omega)
      | (rw [decide_eq_false_iff_not]; omega)
      | (rw [decide_eq_decide]; constructor <;> intro <;> omega)
      | (split_ifs <;> first | rfl | omega | (exfalso; omega))

lemma ctAfter_eq (d : Nat) (hd : 0 < d) (t : Nat) :
    ctAfter d t = ctState d t := by
  induction t with
  | zero =>
    unfold ctAfter ctState
    simp only [Function.iterate_zero_apply, ctInit, CTState.mk.injEq]
    repeat' apply And.intro
    all_goals
      first
        | rfl
        | trivial
        | omega
        | (rw [eq_comm, decide_eq_true_eq]; omega)
        | (rw [eq_comm, decide_eq_false_iff_not]; omega)
  | succ t ih =>
    have hstep : ctAfter d (t + 1) = ctTick d (ctAfter d t) :=
      Function.iterate_succ_apply' _ _ _
    rw [hstep, ih, ctTick_state d hd t]

/-- **C5.** For every cooldown duration `d > 0`, the "Proceed Anyway" skip
affordance becomes available at `t = min(5, d)` seconds after the overlay
is shown — and never earlier: before that instant `canSkip` is false, the
button is hidden, and clicking it is a no-op, in both the lightweight
overlay and the React `CooldownTimer`. -/
theorem skip_unlock_at_min (d : Nat) (hd : 0 < d) :
    (lwAfter d (min 5 d)).canSkip = true ∧
    (lwAfter d (min 5 d)).skipVisible = true ∧
    (lwSkipClick (lwAfter d (min 5 d))).proceeded = true ∧
    (∀ t, t < min 5 d → (lwAfter d t).canSkip = false ∧
      (lwAfter d t).skipVisible = false ∧
      lwSkipClick (lwAfter d t) = lwAfter d t) ∧
    (ctAfter d (min 5 d)).canSkip = true ∧
    (∀ t, t < min 5 d → (ctAfter d t).canSkip = false) := by
  refine ⟨?_, ?_, ?_, ?_, ?_, ?_⟩
  · rw [lwAfter_eq d hd]; simp [lwState]
  · rw [lwAfter_eq d hd]; simp [lwState]
  · rw [lwAfter_eq d hd]; simp [lwSkipClick, lwState]
  · intro t ht
    rw [lwAfter_eq d hd]
    refine ⟨by simp [lwState]; omega, by simp [lwState]; omega, ?_⟩
    rw [lwSkipClick, if_neg]
    simp only [lwState, not_or, not_le, decide_eq_true_eq]
    constructor
    · push_cast; omega
    · omega
  · rw [ctAfter_eq d hd]; simp [ctState]
  · intro t ht
    rw [ctAfter_eq d hd]; simp [ctState]; omega

/-- Witness for C5 at `d = 30`: skip is available at 5 seconds and not at
4 seconds. -/
theorem skip_unlock_at_min_witness :
    (lwAfter 30 5).canSkip = true ∧ (lwAfter 30 4).canSkip = false := by
  have h := skip_unlock_at_min 30 (by norm_num)
  exact ⟨by simpa using h.1, (h.2.2.2.1 4 (by norm_num)).1⟩

set_option maxRecDepth 8000 in
/-- **C6 counterexample.** In the lightweight overlay, letting the
30-second countdown run out with no user action does NOT auto-resolve
Proceed: the proceed continuation has not been invoked, the overlay is
still up, and the stopped timer has merely relabeled the skip button to
"Continue Purchase". -/
theorem countdown_zero_no_autoproceed :
    (lwAfter 30 30).proceeded = false ∧
    (lwAfter 30 30).overlayPresent = true ∧
    (lwAfter 30 30).timerActive = false ∧
    (lwAfter 30 30).skipLabel = "Continue Purchase" := by
  decide

/-- **C6 (amended).** In the React `CooldownTimer`, the countdown reaching
zero auto-invokes the proceed continuation (`onComplete`) with no user
action, and never earlier.  In the lightweight overlay, the countdown
reaching zero resolves nothing: the interval is cleared and the skip
button relabeled "Continue Purchase", and the proceed continuation runs
only on an explicit click from that point on. -/
theorem countdown_zero_behavior (d : Nat) (hd : 0 < d) :
    (ctAfter d d).completed = true ∧
    (∀ t, t < d → (ctAfter d t).completed = false) ∧
    (lwAfter d d).proceeded = false ∧
    (lwAfter d d).overlayPresent = true ∧
    (lwAfter d d).timerActive = false ∧
    (lwAfter d d).skipLabel = "Continue Purchase" ∧
    (lwSkipClick (lwAfter d d)).proceeded = true ∧
    (lwSkipClick (lwAfter d d)).overlayPresent = false := by
  refine ⟨?_, ?_, ?_, ?_, ?_, ?_, ?_, ?_⟩
  · rw [ctAfter_eq d hd]; simp [ctState]
  · intro t ht; rw [ctAfter_eq d hd]; simp [ctState]; omega
  · rw [lwAfter_eq d hd]; simp [lwState]
  · rw [lwAfter_eq d hd]; simp [lwState]
  · rw [lwAfter_eq d hd]; simp [lwState]
  · rw [lwAfter_eq d hd]; simp [lwState]
  · rw [lwAfter_eq d hd]
    rw [lwSkipClick, if_pos]
    left
    simp [lwState]
  · rw [lwAfter_eq d hd]
    rw [lwSkipClick, if_pos]
    left
    simp [lwState]

/-- Witness for C6's amended theorem at `d = 30`: the React timer
completes exactly at 30 seconds, while the lightweight overlay has not
proceeded. -/
theorem countdown_zero_behavior_witness :
    (ctAfter 30 30).completed = true ∧
    (ctAfter 30 29).completed = false ∧
    (lwAfter 30 30).proceeded = false := by
  have h := countdown_zero_behavior 30 (by norm_num)
  exact ⟨h.1, h.2.1 29 (by norm_num), h.2.2.1⟩

/-! ## Claim theorems: the button classifier (C7) -/

/-- **C7 counterexample.** A purchase keyword that occurs only in the
element's `id` does not classify: on a commerce page that passes the
plausibility gate, an element with `id = "buy-now"` (and no exclusion
keyword anywhere) is still rejected, because `isPurchaseButton` searches
`id` only for exclusion keywords. -/
theorem id_keyword_not_classified :
    isExcludedSite demoPage = false ∧
    isLikelyEcommercePage demoPage = true ∧
    strContains demoIdOnlyButton.id "buy" = true ∧
    hasExcludeKeyword demoIdOnlyButton = false ∧
    isPurchaseButton demoPage demoIdOnlyButton = false := by
  decide

/-- **C7 (amended).** Classification returns false on every excluded
hostname regardless of the element; and it returns true for every element
whose text, ARIA label or class tokens (the `id` is consulted only for
exclusions) contain a purchase-intent keyword, that matches no exclusion
keyword, on a non-excluded page passing the e-commerce plausibility
gate. -/
theorem classify_spec (p : Page) (e : PageElement) :
    (isExcludedSite p = true → isPurchaseButton p e = false) ∧
    (hasPurchaseKeyword e = true → hasExcludeKeyword e = false →
      isExcludedSite p = false → isLikelyEcommercePage p = true →
      isPurchaseButton p e = true) := by
  constructor
  · intro h
    simp [isPurchaseButton, h]
  · intro h1 h2 h3 h4
    simp [isPurchaseButton, h1, h2, h3, h4]

/-- Witness for C7's amended theorem: a "buy now" button on GitHub is
rejected; the same button on the commerce page is classified. -/
theorem classify_spec_witness :
    isPurchaseButton excludedPage demoTextButton = false ∧
    isPurchaseButton demoPage demoTextButton = true := by
  exact ⟨(classify_spec excludedPage demoTextButton).1 (by decide),
         (classify_spec demoPage demoTextButton).2
           (by decide) (by decide) (by decide) (by decide)⟩

/-! ## Claim theorems: purchase categorization (C9) -/

lemma pickBest_eq_none (l : List (String × Nat)) :
    pickBest l = none ↔ l = [] := by
  cases l with
  | nil => simp [pickBest]
  | cons p ps =>
    simp only [pickBest]
    rcases pickBest ps with _ | q
    · simp
    · by_cases h : q.2 > p.2 <;> simp [h]

lemma pickBest_mem_max (l : List (String × Nat)) (p : String × Nat)
    (h : pickBest l = some p) : p ∈ l ∧ ∀ q ∈ l, q.2 ≤ p.2 := by
  induction l generalizing p with
  | nil => simp [pickBest] at h
  | cons a l ih =>
    rw [pickBest] at h
    rcases hl : pickBest l with _ | q
    · rw [hl] at h
      have hnil : l = [] := (pickBest_eq_none l).mp hl
      subst hnil
      simp at h
      subst h
      simp
    · rw [hl] at h
      dsimp only at h
      obtain ⟨hqmem, hqmax⟩ := ih q hl
      by_cases hc : q.2 > a.2
      · rw [if_pos hc] at h
        cases h
        refine ⟨List.mem_cons_of_mem a hqmem, ?_⟩
        intro r hr
        rcases List.mem_cons.mp hr with rfl | hr
        · exact le_of_lt hc
        · exact hqmax r hr
      · rw [if_neg hc] at h
        cases h
        refine ⟨List.mem_cons_self a l, ?_⟩
        intro r hr
        rcases List.mem_cons.mp hr with rfl | hr
        · exact le_refl _
        · exact le_trans (hqmax r hr) (le_of_not_lt hc)

/-- **C9 counterexample.** For the URL "book food" the categories "books"
and "food" tie for the highest keyword count (1 each, all others 0), yet
categorization returns "books" — the earliest-declared of the tied
categories — not the claimed "general". -/
theorem tie_does_not_give_general :
    categoryScores "book food" none none "" =
      [("electronics", 0), ("clothing", 0), ("home", 0), ("health", 0),
       ("books", 1), ("food", 1), ("entertainment", 0), ("travel", 0)] ∧
    categorizePurchase "book food" none none "" = "books" := by
  constructor
  · decide
  · decide

/-- **C9 (amended).** Categorization returns a category carrying the
maximal keyword hit count over URL, product name, page content and title;
when no keyword matches at all the result is "general", but a tie for the
highest count resolves to the earliest-declared tied category (the head of
the stable descending sort), not to "general". -/
theorem categorize_spec (url : String) (productName pageContent : Option String)
    (title : String) :
    ((∀ p ∈ categoryScores url productName pageContent title, p.2 = 0) →
      categorizePurchase url productName pageContent title = "general") ∧
    (∀ p, pickBest (categoryScores url productName pageContent title) = some p →
      0 < p.2 →
      categorizePurchase url productName pageContent title = p.1 ∧
      p ∈ categoryScores url productName pageContent title ∧
      ∀ q ∈ categoryScores url productName pageContent title, q.2 ≤ p.2) := by
  constructor
  · intro hz
    unfold categorizePurchase
    rcases hp : pickBest (categoryScores url productName pageContent title) with _ | p
    · rfl
    · obtain ⟨hm, _⟩ := pickBest_mem_max _ p hp
      have h0 : p.2 = 0 := hz p hm
      simp [h0]
  · intro p hp hpos
    obtain ⟨hm, hmax⟩ := pickBest_mem_max _ p hp
    refine ⟨?_, hm, hmax⟩
    unfold categorizePurchase
    rw [hp]
    simp [hpos]

/-- Witness for C9's amended theorem: a URL with no keyword hits yields
"general"; the tied "book food" URL yields "books". -/
theorem categorize_spec_witness :
    categorizePurchase "zzz" none none "" = "general" ∧
    categorizePurchase "book food" none none "" = "books" := by
  refine ⟨(categorize_spec "zzz" none none "").1 (by decide), ?_⟩
  exact ((categorize_spec "book food" none none "").2 ("books", 1)
    (by decide) (by decide)).1

/-! ## Claim theorems: price parsing (C8) -/

lemma priceVal_pos_iff (di df : List Char) :
    0 < priceVal di df ↔ 0 < digitsToNat di + digitsToNat df := by
  unfold priceVal
  have hfrac : (0:ℚ) ≤ (digitsToNat df : ℚ) / (10:ℚ) ^ df.length :=
    div_nonneg (by positivity) (by positivity)
  constructor
  · intro h
    by_contra h0
    push_neg at h0
    have h1 : digitsToNat di = 0 ∧ digitsToNat df = 0 := by omega
    rw [h1.1, h1.2] at h
    norm_num at h
  · intro h
    rcases Nat.eq_zero_or_pos (digitsToNat di) with hdi | hdi
    · have hdf : 0 < digitsToNat df := by omega
      have hq : (0:ℚ) < (digitsToNat df : ℚ) / (10:ℚ) ^ df.length :=
        div_pos (by exact_mod_cast hdf) (by positivity)
      rw [hdi]
      push_cast
      linarith
    · have hq : (0:ℚ) < (digitsToNat di : ℚ) := by exact_mod_cast hdi
      linarith

lemma priceVal_lt_ceiling (di df : List Char)
    (hdf : digitsToNat df < 10 ^ df.length) (hdi : digitsToNat di < 1000000) :
    priceVal di df < 1000000 := by
  unfold priceVal
  have h1 : (digitsToNat df : ℚ) / (10:ℚ) ^ df.length < 1 := by
    rw [div_lt_one (by positivity)]
    push_cast
    exact_mod_cast hdf
  have h2 : (digitsToNat di : ℚ) ≤ 999999 := by
    have : digitsToNat di ≤ 999999 := by omega
    exact_mod_cast this
  linarith

lemma decLoop_frac (ad : Bool) (l : List Char) :
    digitsToNat (decLoop ad l).1 < 10 ^ (decLoop ad l).1.length := by
  unfold decLoop
  split
  next a b rest =>
    split_ifs with h
    · obtain ⟨had, ha, hb⟩ := h
      simp only [isDigitC, Bool.and_eq_true, decide_eq_true_eq] at ha hb
      simp only [digitsToNat, List.foldl_cons, List.foldl_nil, List.length_cons,
        List.length_nil]
      omega
    · simp [digitsToNat]
  next => simp [digitsToNat]

lemma parseNumAt_frac (ad : Bool) (l di df : List Char) (r : List Char)
    (h : parseNumAt ad l = some ((di, df), r)) :
    digitsToNat df < 10 ^ df.length := by
  unfold parseNumAt at h
  rcases h1 : takeDigits 3 l with ⟨d1, r1⟩
  rw [h1] at h
  rcases d1 with _ | ⟨c0, ds⟩
  · simp at h
  · dsimp only at h
    rcases h2 : groupLoop r1 with ⟨dg, r2⟩
    rw [h2] at h
    dsimp only at h
    rcases h3 : decLoop ad r2 with ⟨dfx, r3⟩
    rw [h3] at h
    dsimp only at h
    simp only [Option.some.injEq, Prod.mk.injEq] at h
    obtain ⟨⟨hdi, hdf⟩, hr⟩ := h
    rw [← hdf]
    have hfr := decLoop_frac ad r2
    rw [h3] at hfr
    exact hfr

lemma findBareNumber_frac (l di df : List Char)
    (h : findBareNumber l = some (di, df)) :
    digitsToNat df < 10 ^ df.length := by
  induction l with
  | nil => simp [findBareNumber] at h
  | cons c rest ih =>
    rw [findBareNumber] at h
    split_ifs at h with hc
    · rcases hp : parseNumAt true (c :: rest) with _ | ⟨p, r⟩
      · rw [hp] at h
        simp at h
      · obtain ⟨d1, d2⟩ := p
        rw [hp] at h
        dsimp only at h
        simp only [Option.some.injEq, Prod.mk.injEq] at h
        obtain ⟨h1, h2⟩ := h
        rw [← h2]
        exact parseNumAt_frac true (c :: rest) d1 d2 r hp
    · exact ih h

lemma tryCurrencyPatterns_guard (cs : List Char)
    (pats : List (Char × String × Bool)) (p : List Char × List Char)
    (code : String) (h : tryCurrencyPatterns cs pats = some (p, code)) :
    0 < digitsToNat p.1 + digitsToNat p.2 := by
  induction pats with
  | nil => simp [tryCurrencyPatterns] at h
  | cons q ps ih =>
    obtain ⟨sym, code0, dec⟩ := q
    rw [tryCurrencyPatterns] at h
    rcases hm : findSymbolMatch sym dec cs with _ | pm
    · rw [hm] at h
      exact ih h
    · rw [hm] at h
      dsimp only at h
      split_ifs at h with hg
      · simp only [Option.some.injEq, Prod.mk.injEq] at h
        obtain ⟨h1, h2⟩ := h
        subst h1
        exact hg
      · exact ih h

lemma trySuffixPatterns_guard (cs : List Char)
    (pats : List (String × String)) (p : List Char × List Char)
    (code : String) (h : trySuffixPatterns cs pats = some (p, code)) :
    0 < digitsToNat p.1 + digitsToNat p.2 := by
  induction pats with
  | nil => simp [trySuffixPatterns] at h
  | cons q ps ih =>
    obtain ⟨lit, code0⟩ := q
    rw [trySuffixPatterns] at h
    rcases hm : findSuffixMatch lit.toList cs with _ | pm
    · rw [hm] at h
      exact ih h
    · rw [hm] at h
      dsimp only at h
      split_ifs at h with hg
      · simp only [Option.some.injEq, Prod.mk.injEq] at h
        obtain ⟨h1, h2⟩ := h
        subst h1
        exact hg
      · exact ih h

lemma extractPriceParts_guards (s : String) (di df : List Char)
    (cur : Option String)
    (h : extractPriceParts s = some ((di, df), cur)) :
    0 < digitsToNat di + digitsToNat df ∧
    (cur = none →
      digitsToNat di < 1000000 ∧ digitsToNat df < 10 ^ df.length) := by
  unfold extractPriceParts at h
  split_ifs at h with h0
  rcases h1 : tryCurrencyPatterns s.toList symbolPatterns with _ | ⟨p, code⟩
  · rw [h1] at h
    dsimp only at h
    rcases h2 : trySuffixPatterns s.toList suffixPatterns with _ | ⟨p, code⟩
    · rw [h2] at h
      dsimp only at h
      rcases h3 : findBareNumber s.toList with _ | ⟨d1, d2⟩
      · rw [h3] at h
        simp at h
      · rw [h3] at h
        dsimp only at h
        split_ifs at h with hg
        simp only [Option.some.injEq, Prod.mk.injEq] at h
        obtain ⟨⟨hd1, hd2⟩, hcur⟩ := h
        subst hd1
        subst hd2
        exact ⟨by omega, fun _ => ⟨hg.2, findBareNumber_frac _ d1 d2 h3⟩⟩
    · rw [h2] at h
      dsimp only at h
      simp only [Option.some.injEq, Prod.mk.injEq] at h
      obtain ⟨hp, hcur⟩ := h
      have hpos := trySuffixPatterns_guard _ _ _ _ h2
      subst hp
      refine ⟨by simpa using hpos, fun hn => ?_⟩
      rw [hn] at hcur
      exact absurd hcur (by simp)
  · rw [h1] at h
    dsimp only at h
    simp only [Option.some.injEq, Prod.mk.injEq] at h
    obtain ⟨hp, hcur⟩ := h
    have hpos := tryCurrencyPatterns_guard _ _ _ _ h1
    subst hp
    refine ⟨by simpa using hpos, fun hn => ?_⟩
    rw [hn] at hcur
    exact absurd hcur (by simp)

/-- **C8 counterexample.** At the text level, "Reviews: 4,210" IS parsed
as a price: no currency pattern matches, and the bare-number fallback
accepts 4210 (positive and under the 1000000 ceiling), so the claim that
such text is never returned as a price fails — only selector scoping
keeps review counts out of price extraction. -/
theorem review_count_parsed_as_price :
    extractPriceFromText "Reviews: 4,210" = (some 4210, none) := by
  have h : extractPriceParts "Reviews: 4,210" =
      some ((['4', '2', '1', '0'], []), none) := by decide
  unfold extractPriceFromText
  rw [h]
  have h1 : digitsToNat ['4', '2', '1', '0'] = 4210 := by decide
  have h2 : digitsToNat ([] : List Char) = 0 := by decide
  simp [priceVal, h1, h2]

/-- **C8 (amended).** Price parsing maps "$1,299.00" to 1299 / USD and
"€49" to 49 / EUR; every returned price is strictly positive, and a price
returned by the symbol-less fallback is below the 1000000 sanity ceiling
(the ceiling applies only to the fallback branch).  But the text parser
itself does return "Reviews: 4,210" as price 4210 with no currency:
review counts are kept out of prices only by scoping extraction to
price-shaped selectors. -/
theorem extractPrice_spec :
    extractPriceFromText "$1,299.00" = (some 1299, some "USD") ∧
    extractPriceFromText "€49" = (some 49, some "EUR") ∧
    (∀ s p c, extractPriceFromText s = (some p, c) → 0 < p) ∧
    (∀ s p, extractPriceFromText s = (some p, none) → p < 1000000) := by
  refine ⟨?_, ?_, ?_, ?_⟩
  · have h : extractPriceParts "$1,299.00" =
        some ((['1', '2', '9', '9'], ['0', '0']), some "USD") := by decide
    unfold extractPriceFromText
    rw [h]
    have h1 : digitsToNat ['1', '2', '9', '9'] = 1299 := by decide
    have h2 : digitsToNat ['0', '0'] = 0 := by decide
    simp [priceVal, h1, h2]
  · have h : extractPriceParts "€49" =
        some ((['4', '9'], []), some "EUR") := by decide
    unfold extractPriceFromText
    rw [h]
    have h1 : digitsToNat ['4', '9'] = 49 := by decide
    have h2 : digitsToNat ([] : List Char) = 0 := by decide
    simp [priceVal, h1, h2]
  · intro s p c h
    unfold extractPriceFromText at h
    rcases he : extractPriceParts s with _ | ⟨⟨di, df⟩, cur⟩
    · rw [he] at h
      simp at h
    · rw [he] at h
      dsimp only at h
      simp only [Prod.mk.injEq, Option.some.injEq] at h
      obtain ⟨hp, hc⟩ := h
      rw [← hp]
      exact (priceVal_pos_iff di df).mpr (extractPriceParts_guards s di df cur he).1
  · intro s p h
    unfold extractPriceFromText at h
    rcases he : extractPriceParts s with _ | ⟨⟨di, df⟩, cur⟩
    · rw [he] at h
      simp at h
    · rw [he] at h
      dsimp only at h
      simp only [Prod.mk.injEq, Option.some.injEq] at h
      obtain ⟨hp, hc⟩ := h
      obtain ⟨hd1, hd2⟩ := (extractPriceParts_guards s di df cur he).2 hc
      rw [← hp]
      exact priceVal_lt_ceiling di df hd2 hd1

/-- Witness for C8's amended theorem: the positivity bound applied to the
"$1,299.00" parse and the ceiling bound applied to the fallback parse of
"Reviews: 4,210". -/
theorem extractPrice_spec_witness :
    (0:ℚ) < 1299 ∧ (4210:ℚ) < 1000000 := by
  constructor
  · exact extractPrice_spec.2.2.1 "$1,299.00" 1299 (some "USD")
      extractPrice_spec.1
  · refine extractPrice_spec.2.2.2 "Reviews: 4,210" 4210 ?_
    have h : extractPriceParts "Reviews: 4,210" =
        some ((['4', '2', '1', '0'], []), none) := by decide
    unfold extractPriceFromText
    rw [h]
    have h1 : digitsToNat ['4', '2', '1', '0'] = 4210 := by decide
    have h2 : digitsToNat ([] : List Char) = 0 := by decide
    simp [priceVal, h1, h2]

end SpendGuard
